import Mathlib

/-!
Verification development for the coursework repository: shallow embeddings of
the console quiz (`assignment_3/interactive_quiz.py`), the web quiz service
(`assignment_3/start.py`) and the two Spades card-game drafts
(`spades_ggame.py` and `Final_Project/spades_game.py`), with theorems checking
the natural-language specification against them.  Python integers are embedded
as `Int`/`Nat`, Python lists as `List`, float arithmetic as exact `ℚ`, and
exceptions as `Except`.
-/

namespace InteractiveQuiz

/-- From `Quiz.show_progress_bar`: `percent = (current / total) * 100` and
`filled = int(percent / 5)`.  The float arithmetic is embedded exactly over
`ℚ`; Python's `int()` truncates, which on these nonnegative values is the
floor. -/
def filled_segments (current total : ℕ) : ℕ :=
  (Int.floor (((current : ℚ) / (total : ℚ)) * 100 / 5)).toNat

/-- From `Quiz.show_progress_bar`: the bar string
`"█" * filled + "░" * (20 - filled)` (Python string repetition; a negative
repeat count yields the empty string, exactly as `Nat` subtraction does). -/
def progress_bar (current total : ℕ) : List Char :=
  List.replicate (filled_segments current total) '█'
    ++ List.replicate (20 - filled_segments current total) '░'

/-- From the incorrect-answer branch of `Quiz.run_quiz`:
`self.score -= points // 2 if self.score > 0 else 0`, which by Python operator
precedence subtracts `points // 2` exactly when the score is positive
(and subtracts 0 otherwise), with no check on the resulting value. -/
def incorrect_penalty_update (score : ℤ) (points : ℕ) : ℤ :=
  score - (if 0 < score then (points / 2 : ℕ) else 0)

/-- From the incorrect-answer branch of `Quiz.run_quiz`: the line printed,
`f"The correct answer is: \x7bq['correct']\x7d"`. -/
def incorrect_feedback (correct : String) : String :=
  "The correct answer is: " ++ correct

end InteractiveQuiz

namespace WebQuiz

/-- Python exceptions that the embedded handlers can raise. -/
inductive PyError
  | json_decode_error
  | index_error
deriving DecidableEq

/-- One leaderboard entry as stored in `scores.json` (the fields relevant to
the leaderboard route). -/
structure ScoreEntry where
  username : String
  score : ℕ
  total : ℕ
  percentage : ℚ
deriving DecidableEq

/-- The on-disk leaderboard file as `load_scores` observes it: absent, present
with contents on which `json.load` raises `JSONDecodeError`, or present with a
parsed list of entries.  (JSON parsing itself is the third-party `json`
library; it is represented by its outcome.) -/
inductive ScoresFile
  | missing
  | invalid
  | parsed (entries : List ScoreEntry)
deriving DecidableEq

/-- From `load_scores` in `start.py`: a missing file yields `[]`; otherwise the
file is opened and `json.load` either returns the parsed list or raises. -/
def load_scores : ScoresFile → Except PyError (List ScoreEntry)
  | .missing => .ok []
  | .invalid => .error .json_decode_error
  | .parsed entries => .ok entries

/-- From the `/api/leaderboard` handler: load the scores, sort by `percentage`
descending (Python's stable sort), return the first 10.  An exception from
`load_scores` propagates out of the handler. -/
def leaderboard_route (f : ScoresFile) : Except PyError (List ScoreEntry) :=
  match load_scores f with
  | .error e => .error e
  | .ok scores =>
      .ok ((scores.mergeSort (fun a b => decide (b.percentage ≤ a.percentage))).take 10)

/-- One quiz question as stored in the server-side session. -/
structure Question where
  id : ℕ
  question : String
  options : List String
  correct_answer : String
deriving DecidableEq

/-- One recorded answer in the session's `answers` list. -/
structure AnswerRecord where
  question : String
  user_answer : String
  correct_answer : String
  is_correct : Bool
deriving DecidableEq

/-- The server-side session state the quiz routes read and write. -/
structure Session where
  quiz_active : Bool
  username : String
  questions : List Question
  current_index : ℕ
  score : ℕ
  answers : List AnswerRecord
deriving DecidableEq

/-- Responses of the `/api/get-question` handler. -/
inductive GetQuestionResp
  | no_active_quiz
  | quiz_complete
  | question (q : Question) (question_number total_questions : ℕ)
deriving DecidableEq

/-- From the `/api/get-question` handler: reject when no quiz is active;
report `quiz_complete` when `current_index >= len(questions)`; otherwise
return the current question with its number and the total. -/
def get_question (s : Session) : GetQuestionResp :=
  if s.quiz_active = false then .no_active_quiz
  else
    match s.questions.get? s.current_index with
    | none => .quiz_complete
    | some q => .question q (s.current_index + 1) s.questions.length

/-- Responses of the `/api/submit-answer` handler. -/
inductive SubmitResp
  | no_active_quiz
  | empty_answer
  | result (is_correct : Bool) (correct_answer : String) (quiz_complete : Bool)
deriving DecidableEq

/-- From the `/api/submit-answer` handler: reject when no quiz is active or
the answer is empty; then evaluate `session['questions'][index]` — which
raises `IndexError` when the index is past the end of the list — compare the
answer, update score/answers/index, and report completion.  The handler reads
`data.get('answer', '').strip()` once and uses only that; `user_answer` here
is that already-stripped request field (request parsing and `str.strip` are
the framework/standard-library boundary). -/
def submit_answer (s : Session) (user_answer : String) :
    Except PyError (SubmitResp × Session) :=
  if s.quiz_active = false then .ok (.no_active_quiz, s)
  else
    if user_answer = "" then .ok (.empty_answer, s)
    else
      match s.questions.get? s.current_index with
      | none => .error .index_error
      | some q =>
          let is_correct := user_answer = q.correct_answer
          let s2 : Session :=
            { s with
              score := s.score + (if is_correct then 1 else 0)
              answers := s.answers ++
                [⟨q.question, user_answer, q.correct_answer, decide is_correct⟩]
              current_index := s.current_index + 1 }
          .ok (.result (decide is_correct) q.correct_answer
                 (decide (s.questions.length ≤ s.current_index + 1)), s2)

end WebQuiz

namespace Spades

/-- `RANK_VALUES` from the Spades drafts: rank string to numeric value 2..14.
(An unknown rank string, which would raise `KeyError` in Python, maps to 0;
every card the programs build uses one of the 13 listed ranks.) -/
def RANK_VALUES : String → ℕ
  | "2" => 2
  | "3" => 3
  | "4" => 4
  | "5" => 5
  | "6" => 6
  | "7" => 7
  | "8" => 8
  | "9" => 9
  | "10" => 10
  | "J" => 11
  | "Q" => 12
  | "K" => 13
  | "A" => 14
  | _ => 0

/-- The `Card` class: a suit symbol and a rank string, equality structural
(`__eq__` compares suit and rank). -/
structure Card where
  suit : String
  rank : String
deriving DecidableEq

/-- `Card.get_value`: `RANK_VALUES[self.rank]`. -/
def Card.get_value (c : Card) : ℕ := RANK_VALUES c.rank

/-- The dictionary `Card.to_dict` produces and `Card.from_dict` consumes. -/
structure CardDict where
  suit : String
  rank : String
deriving DecidableEq

/-- `Card.to_dict`: `{'suit': self.suit, 'rank': self.rank}`. -/
def Card.to_dict (c : Card) : CardDict := ⟨c.suit, c.rank⟩

/-- `Card.from_dict`: `Card(data['suit'], data['rank'])`. -/
def Card.from_dict (d : CardDict) : Card := ⟨d.suit, d.rank⟩

/-- One entry of `current_trick`: `{'player': player, 'card': card}`. -/
structure Play where
  player : ℕ
  card : Card
deriving DecidableEq

end Spades

namespace SpadesFP

open Spades

/-- The mutable state of `Final_Project/spades_game.py`'s `SpadesGame` that the
game logic reads and writes (UI widgets, stats and AI memory aside).  `scores`
is the Python `[[points, bags], [points, bags]]` list. -/
structure GameState where
  game_state : String
  hands : List (List Card)
  bids : List (Option ℕ)
  deal_bids : List Bool
  tricks : List ℕ
  current_trick : List Play
  current_player : ℕ
  lead_suit : Option String
  spades_broken : Bool
  scores : List (List ℤ)
  rounds : ℕ
deriving DecidableEq

/-- `SpadesGame.can_play`: only the human (player 0) is checked; on a lead,
a spade is legal only if spades are broken or the hand is all spades; when
following, the lead suit must be followed if held. -/
def can_play (s : GameState) (card : Card) : Bool :=
  if s.current_player ≠ 0 then false
  else if s.current_trick.isEmpty then
    if s.spades_broken ∨ card.suit ≠ "♠" then true
    else (s.hands.getD 0 []).all (fun c => c.suit = "♠")
  else if (s.hands.getD 0 []).any (fun c => s.lead_suit = some c.suit) then
    decide (s.lead_suit = some card.suit)
  else true

/-- `SpadesGame.play_card`, its state effect: refuse a card not in the hand;
remove the card (Python `list.remove`: first occurrence), append the play to
the trick, set the lead suit on the trick's first card, set `spades_broken`
whenever a spade is played, and advance `current_player` unless the trick just
became full (the full trick waits for `finish_trick`). -/
def play_card (s : GameState) (player : ℕ) (card : Card) : GameState :=
  if card ∉ s.hands.getD player [] then s
  else
    let trick := s.current_trick ++ [⟨player, card⟩]
    { s with
      hands := s.hands.set player ((s.hands.getD player []).erase card)
      current_trick := trick
      lead_suit := if trick.length = 1 then some card.suit else s.lead_suit
      spades_broken := if card.suit = "♠" then true else s.spades_broken
      current_player := if trick.length = 4 then s.current_player
                        else (player + 1) % 4 }

/-- The body of `finish_trick`'s winner loop: a spade beats a non-spade
winner; a higher card of the winner's own suit beats it; otherwise the winner
stands. -/
def winner_step (w p : Play) : Play :=
  if p.card.suit = "♠" ∧ w.card.suit ≠ "♠" then p
  else if p.card.suit = w.card.suit ∧ w.card.get_value < p.card.get_value then p
  else w

/-- `finish_trick`'s winner computation: `winner = self.current_trick[0]`
followed by the loop over the whole trick. -/
def trick_winner (trick : List Play) : Option Play :=
  match trick with
  | [] => none
  | first :: _ => some (trick.foldl winner_step first)

/-- `SpadesGame.finish_trick`, its state effect: credit the winning player
with one trick, clear the trick, clear the lead suit, and make the winner the
next player to act (the leader of the next trick). -/
def finish_trick (s : GameState) : GameState :=
  match s.current_trick with
  | [] => s
  | first :: _ =>
      let w := s.current_trick.foldl winner_step first
      { s with
        tricks := s.tricks.set w.player (s.tricks.getD w.player 0 + 1)
        current_trick := []
        lead_suit := none
        current_player := w.player }

/-- The JSON snapshot `save_game` writes (field for field the Python dict;
JSON (de)serialization of this record by the `json` library is faithful). -/
structure TrickEntryDict where
  player : ℕ
  card : CardDict
deriving DecidableEq

/-- The full snapshot dictionary written by `save_game`. -/
structure SaveData where
  game_state : String
  hands : List (List CardDict)
  bids : List (Option ℕ)
  deal_bids : List Bool
  tricks : List ℕ
  current_trick : List TrickEntryDict
  current_player : ℕ
  lead_suit : Option String
  spades_broken : Bool
  scores : List (List ℤ)
  rounds : ℕ
deriving DecidableEq

/-- `SpadesGame.save_game`: refused (with a dialog, writing nothing) in the
tutorial; otherwise the snapshot dictionary is built with every card passed
through `Card.to_dict` and dumped to the save file. -/
def save_game (s : GameState) : Option SaveData :=
  if s.game_state = "tutorial" then none
  else some
    { game_state := s.game_state
      hands := s.hands.map (fun h => h.map Card.to_dict)
      bids := s.bids
      deal_bids := s.deal_bids
      tricks := s.tricks
      current_trick := s.current_trick.map (fun p => ⟨p.player, p.card.to_dict⟩)
      current_player := s.current_player
      lead_suit := s.lead_suit
      spades_broken := s.spades_broken
      scores := s.scores
      rounds := s.rounds }

/-- `SpadesGame.load_game`: every field of the in-memory state is replaced by
the snapshot's value, cards passed through `Card.from_dict`. -/
def load_game (d : SaveData) (s : GameState) : GameState :=
  { s with
    game_state := d.game_state
    hands := d.hands.map (fun h => h.map Card.from_dict)
    bids := d.bids
    deal_bids := d.deal_bids
    tricks := d.tricks
    current_trick := d.current_trick.map (fun p => ⟨p.player, Card.from_dict p.card⟩)
    current_player := d.current_player
    lead_suit := d.lead_suit
    spades_broken := d.spades_broken
    scores := d.scores
    rounds := d.rounds }

/-- `WINNING_SCORE` in both drafts. -/
def WINNING_SCORE : ℤ := 300

/-- `SpadesGame.end_round` of `Final_Project/spades_game.py`, the round score
of one team: this draft pairs adjacent seats (`p1, p2 = team*2, team*2+1`)
and scores the team jointly — if either seat declared DEAL, the team scores
±100 on the DEAL seat's tricks alone; otherwise the combined bid and combined
tricks are scored with the 10×bid + overtricks formula. -/
def fp_team_round_score (deal_bids : List Bool) (bids tricks : List ℤ)
    (team : ℕ) : ℤ :=
  let p1 := team * 2
  let p2 := team * 2 + 1
  let team_bid := bids.getD p1 0 + bids.getD p2 0
  let team_tricks := tricks.getD p1 0 + tricks.getD p2 0
  if deal_bids.getD p1 false ∨ deal_bids.getD p2 false then
    (let deal_player := if deal_bids.getD p1 false then p1 else p2
     if tricks.getD deal_player 0 = 0 then 100 else -100)
  else if team_bid ≤ team_tricks then team_bid * 10 + (team_tricks - team_bid)
  else -(team_bid * 10)

/-- `SpadesGame.end_game` of `Final_Project/spades_game.py`:
`winner = 1 if self.scores[0][0] >= WINNING_SCORE else 2`. -/
def fp_end_game_winner (score0 score1 : ℤ) : ℕ :=
  if WINNING_SCORE ≤ score0 then 1 else 2

end SpadesFP

namespace SpadesGG

open Spades
open SpadesFP (WINNING_SCORE)

/-- One step of the per-seat loop in `calc_score_and_next`
(`spades_ggame.py`): add seat `p`'s contribution to the team's accumulator
`pts[ti]`. -/
def seat_step (deal_bids : List Bool) (bids tricks : List ℤ) (acc : ℤ)
    (p : ℕ) : ℤ :=
  if deal_bids.getD p false then
    if tricks.getD p 0 = 0 then acc + 100 else acc - 100
  else if bids.getD p 0 ≤ tricks.getD p 0 then
    acc + (bids.getD p 0 * 10 + (tricks.getD p 0 - bids.getD p 0))
  else acc - bids.getD p 0 * 10

/-- The `pts` list computed by `calc_score_and_next`: teams are the opposite
seats `[[0, 2], [1, 3]]`, and each team's points accumulate from its two
seats in turn. -/
def calc_pts (deal_bids : List Bool) (bids tricks : List ℤ) : List ℤ :=
  [[0, 2], [1, 3]].map (fun players =>
    players.foldl (seat_step deal_bids bids tricks) 0)

/-- The per-team round bags of `calc_score_and_next`:
`sum(tricks[p] - bids[p] for p in players if not deal_bids[p] and
tricks[p] > bids[p])`. -/
def round_bags (deal_bids : List Bool) (bids tricks : List ℤ)
    (players : List ℕ) : ℤ :=
  players.foldl (fun acc p =>
    if ¬ deal_bids.getD p false ∧ bids.getD p 0 < tricks.getD p 0 then
      acc + (tricks.getD p 0 - bids.getD p 0)
    else acc) 0

/-- The sandbag update of `calc_score_and_next`: `scores[ti][1] += bags`,
then if the counter reached 10, `scores[ti][0] -= 100; scores[ti][1] -= 10`.
Returns the team's new `(points, bag counter)`. -/
def apply_bag_penalty (score bag_counter new_bags : ℤ) : ℤ × ℤ :=
  let b := bag_counter + new_bags
  if 10 ≤ b then (score - 100, b - 10) else (score, b)

/-- The game-over test of `calc_score_and_next`:
`scores[0][0] >= WINNING_SCORE or scores[1][0] >= WINNING_SCORE`. -/
def game_over (score0 score1 : ℤ) : Bool :=
  decide (WINNING_SCORE ≤ score0) || decide (WINNING_SCORE ≤ score1)

/-- The winner test of `calc_score_and_next`:
`won = self.scores[0][0] > self.scores[1][0]` (team 1 is the human's). -/
def team1_won (score0 score1 : ℤ) : Bool :=
  decide (score1 < score0)

/-- The round loop of `spades_ggame.py` abstracted over the per-round score
deltas: after each round resolution the cumulative scores are updated and the
game ends the moment `game_over` holds, otherwise the next round is dealt. -/
def play_rounds : ℤ → ℤ → List (ℤ × ℤ) → ℤ × ℤ
  | s0, s1, [] => (s0, s1)
  | s0, s1, d :: rest =>
      if game_over (s0 + d.1) (s1 + d.2) then (s0 + d.1, s1 + d.2)
      else play_rounds (s0 + d.1) (s1 + d.2) rest

/-- Spec-side definition, written from the specification's words (§4.1
Scoring) for comparison with the code-side `calc_pts`: the contribution of a
single seat to its team's round score. -/
def spec_seat_score (zero_bid : Bool) (bid tricks_won : ℤ) : ℤ :=
  if zero_bid then (if tricks_won = 0 then 100 else -100)
  else if bid ≤ tricks_won then 10 * bid + (tricks_won - bid)
  else -(10 * bid)

end SpadesGG

/-- Claim C7 (amended): in the console quiz, an incorrect answer prints the
correct answer, and `points // 2` (integer half) is subtracted from the
running score exactly when the running score is currently positive; the
subtraction is performed even when it brings the score below zero. -/
theorem C7_incorrect_answer_penalty (score : ℤ) (points : ℕ) (correct : String) :
    InteractiveQuiz.incorrect_feedback correct = "The correct answer is: " ++ correct ∧
    InteractiveQuiz.incorrect_penalty_update score points =
      (if 0 < score then score - (points / 2 : ℕ) else score) := by
  refine ⟨rfl, ?_⟩
  unfold InteractiveQuiz.incorrect_penalty_update
  split_ifs <;> simp

/-- Claim C7, counterexample to the claim as stated: a running score of 1 and a
4-point question answered incorrectly — the code subtracts 2 and leaves the
score at −1, so the penalty is applied even though it brings the score below
zero. -/
theorem C7_counterexample :
    InteractiveQuiz.incorrect_penalty_update 1 4 = -1 ∧
    InteractiveQuiz.incorrect_penalty_update 1 4 < 0 := by
  constructor <;> decide

/-- Claim C8 (amended): the progress bar shown before question index `i` of
`n` is exactly 20 characters wide, and its number of filled segments is
`⌊percent / 5⌋` with `percent = 100 × i / n` — Python's `int()` truncation,
not `round(percent / 5)`. -/
theorem C8_progress_bar (i n : ℕ) (hin : i ≤ n) (hn : 0 < n) :
    (InteractiveQuiz.progress_bar i n).length = 20 ∧
    (InteractiveQuiz.filled_segments i n : ℤ) =
      Int.floor (((i : ℚ) / (n : ℚ)) * 100 / 5) := by
  have hx0 : (0 : ℚ) ≤ ((i : ℚ) / (n : ℚ)) * 100 / 5 := by positivity
  have hn0 : (0 : ℚ) < (n : ℚ) := by exact_mod_cast hn
  have hdiv : ((i : ℚ) / (n : ℚ)) ≤ 1 :=
    div_le_one_of_le (by exact_mod_cast hin) (le_of_lt hn0)
  have hx20 : ((i : ℚ) / (n : ℚ)) * 100 / 5 ≤ 20 := by nlinarith
  have hfl0 : 0 ≤ Int.floor (((i : ℚ) / (n : ℚ)) * 100 / 5) :=
    Int.floor_nonneg.mpr hx0
  have hfl20 : Int.floor (((i : ℚ) / (n : ℚ)) * 100 / 5) ≤ 20 := by
    calc Int.floor (((i : ℚ) / (n : ℚ)) * 100 / 5) ≤ Int.floor (20 : ℚ) :=
          Int.floor_le_floor hx20
      _ = 20 := by norm_num
  have hseg : (InteractiveQuiz.filled_segments i n : ℤ) =
      Int.floor (((i : ℚ) / (n : ℚ)) * 100 / 5) := by
    unfold InteractiveQuiz.filled_segments
    exact Int.toNat_of_nonneg hfl0
  refine ⟨?_, hseg⟩
  have hle : InteractiveQuiz.filled_segments i n ≤ 20 := by
    have := Int.toNat_le.mpr hfl20
    simpa [InteractiveQuiz.filled_segments] using this
  simp only [InteractiveQuiz.progress_bar, List.length_append, List.length_replicate]
  omega

/-- Claim C8, witness: before question index 1 of 3 the bar is 20 characters
wide. -/
theorem C8_progress_bar_witness :
    (1 : ℕ) ≤ 3 ∧ (0 : ℕ) < 3 ∧ (InteractiveQuiz.progress_bar 1 3).length = 20 :=
  ⟨by decide, by decide, (C8_progress_bar 1 3 (by decide) (by decide)).1⟩

/-- Claim C8, counterexample to the claim as stated: before question index 1
of 3, `percent / 5 = 20/3 ≈ 6.67`, the code fills `int(20/3) = 6` segments,
but `round(20/3) = 7`. -/
theorem C8_counterexample :
    InteractiveQuiz.filled_segments 1 3 = 6 ∧
    round (((1 : ℚ) / 3) * 100 / 5) = 7 := by
  have hf : Int.floor ((20 : ℚ) / 3) = 6 := by
    rw [Int.floor_eq_iff]
    norm_num
  constructor
  · have h : (((1 : ℕ) : ℚ) / ((3 : ℕ) : ℚ)) * 100 / 5 = 20 / 3 := by norm_num
    unfold InteractiveQuiz.filled_segments
    rw [h, hf]
    rfl
  · have h : ((1 : ℚ) / 3) * 100 / 5 = 20 / 3 := by norm_num
    rw [h, round_eq]
    have h2 : (20 : ℚ) / 3 + 1 / 2 = 43 / 6 := by norm_num
    rw [h2, Int.floor_eq_iff]
    norm_num

/-- Claim C9 (amended): a missing leaderboard file loads as the empty list and
the leaderboard route returns the empty ranking; a file whose contents fail to
parse as JSON makes `json.load` raise `JSONDecodeError`, and that exception
propagates uncaught out of `load_scores` and out of the leaderboard route. -/
theorem C9_leaderboard_file_handling :
    WebQuiz.load_scores .missing = .ok [] ∧
    WebQuiz.leaderboard_route .missing = .ok [] ∧
    WebQuiz.load_scores .invalid = .error .json_decode_error ∧
    WebQuiz.leaderboard_route .invalid = .error .json_decode_error := by
  refine ⟨rfl, ?_, rfl, rfl⟩
  simp [WebQuiz.leaderboard_route, WebQuiz.load_scores]

/-- Claim C9, counterexample to the claim as stated: on a present-but-unparsable
leaderboard file, neither `load_scores` nor the leaderboard route yields the
empty list — both raise. -/
theorem C9_counterexample :
    WebQuiz.load_scores .invalid ≠ .ok [] ∧
    WebQuiz.leaderboard_route .invalid ≠ .ok [] := by
  constructor <;> simp [WebQuiz.load_scores, WebQuiz.leaderboard_route]

/-- Claim C10: with a session still active and the current index equal to the
number of questions (every question answered, results not yet fetched), the
submit-answer handler indexes past the end of the question list and raises an
uncaught IndexError, while the get-question handler in the same state returns
the distinct quiz-complete response. -/
theorem C10_submit_after_last_question (s : WebQuiz.Session) (user_answer : String)
    (hactive : s.quiz_active = true)
    (hanswer : ¬ user_answer = "")
    (hidx : s.current_index = s.questions.length) :
    WebQuiz.submit_answer s user_answer = .error .index_error ∧
    WebQuiz.get_question s = .quiz_complete := by
  have hget : s.questions[s.current_index]? = none := by
    rw [hidx]
    simp
  constructor
  · simp [WebQuiz.submit_answer, hactive, hanswer, hget]
  · simp [WebQuiz.get_question, hactive, hget]

/-- Claim C10, witness: a concrete active session whose one question is already
answered (index 1 of 1). -/
theorem C10_submit_after_last_question_witness :
    WebQuiz.submit_answer ⟨true, "ann", [⟨1, "q", ["a", "b"], "a"⟩], 1, 0, []⟩ "b"
        = .error .index_error ∧
    WebQuiz.get_question ⟨true, "ann", [⟨1, "q", ["a", "b"], "a"⟩], 1, 0, []⟩
        = .quiz_complete :=
  C10_submit_after_last_question _ _ rfl (by decide) rfl

/-- One step of the per-seat scoring loop equals adding the specification's
per-seat formula for that seat. -/
theorem seat_step_eq_spec (deal_bids : List Bool) (bids tricks : List ℤ)
    (acc : ℤ) (p : ℕ) :
    SpadesGG.seat_step deal_bids bids tricks acc p =
      acc + SpadesGG.spec_seat_score (deal_bids.getD p false)
              (bids.getD p 0) (tricks.getD p 0) := by
  unfold SpadesGG.seat_step SpadesGG.spec_seat_score
  split_ifs <;> ring

/-- Claim C1 (amended): in the scoring draft the specification describes
(`calc_score_and_next` in `spades_ggame.py`), a zero-bid seat contributes +100
to its team's round score when it won exactly 0 tricks and −100 otherwise;
every other seat contributes 10×bid + (tricks − bid) when tricks ≥ bid and
−10×bid otherwise; a team's round score is the sum of its two (opposite) seats'
contributions, the zero-bid payout independent of the partner's normal
scoring.  (The `Final_Project/spades_game.py` draft instead scores each team
jointly; see the counterexample.) -/
theorem C1_per_seat_round_scoring (deal_bids : List Bool) (bids tricks : List ℤ) :
    SpadesGG.calc_pts deal_bids bids tricks =
      [SpadesGG.spec_seat_score (deal_bids.getD 0 false) (bids.getD 0 0) (tricks.getD 0 0)
         + SpadesGG.spec_seat_score (deal_bids.getD 2 false) (bids.getD 2 0) (tricks.getD 2 0),
       SpadesGG.spec_seat_score (deal_bids.getD 1 false) (bids.getD 1 0) (tricks.getD 1 0)
         + SpadesGG.spec_seat_score (deal_bids.getD 3 false) (bids.getD 3 0) (tricks.getD 3 0)] := by
  simp [SpadesGG.calc_pts, seat_step_eq_spec]

/-- Claim C1, counterexample to the claim as stated, on the
`Final_Project/spades_game.py` draft: with no zero-bids, bids `[4,2,4,3]` and
tricks `[3,3,4,3]`, `end_round` gives the team of seats 0 and 1 a round score
of 60 (combined bid 6, combined tricks 6), while the claimed per-seat scoring
gives seat 0 `−40` and seat 1 `+21` (sum `−19`); pairing seat 0 with the
opposite seat 2 would give `−40 + 40 = 0`.  Neither per-seat sum equals 60. -/
theorem C1_counterexample :
    SpadesFP.fp_team_round_score [false, false, false, false]
        [4, 2, 4, 3] [3, 3, 4, 3] 0 = 60 ∧
    SpadesGG.spec_seat_score false 4 3 + SpadesGG.spec_seat_score false 2 3 = -19 ∧
    SpadesGG.spec_seat_score false 4 3 + SpadesGG.spec_seat_score false 4 4 = 0 := by
  refine ⟨?_, ?_, ?_⟩ <;> decide

/-- Claim C2: at a round resolution after which a team's cumulative bag
counter is at least 10, exactly 100 points are subtracted from the team's
score (once) and exactly 10 from its bag counter, so the remainder carries
forward — the counter is not reset to zero. -/
theorem C2_sandbag_penalty (deal_bids : List Bool) (bids tricks : List ℤ)
    (players : List ℕ) (score ctr : ℤ)
    (h : 10 ≤ ctr + SpadesGG.round_bags deal_bids bids tricks players) :
    SpadesGG.apply_bag_penalty score ctr
        (SpadesGG.round_bags deal_bids bids tricks players) =
      (score - 100, ctr + SpadesGG.round_bags deal_bids bids tricks players - 10) := by
  unfold SpadesGG.apply_bag_penalty
  simp [h]

/-- Claim C2, witness: a team at 8 bags gaining 3 more (seat 0 bid 4 won 6,
seat 2 bid 2 won 3) rises to 11, is penalized exactly 100 points once, and
carries a remainder of 1 bag. -/
theorem C2_sandbag_penalty_witness :
    10 ≤ 8 + SpadesGG.round_bags [false, false, false, false]
        [4, 0, 2, 0] [6, 0, 3, 0] [0, 2] ∧
    SpadesGG.apply_bag_penalty 50 8
        (SpadesGG.round_bags [false, false, false, false] [4, 0, 2, 0] [6, 0, 3, 0] [0, 2]) =
      (50 - 100,
       8 + SpadesGG.round_bags [false, false, false, false] [4, 0, 2, 0] [6, 0, 3, 0] [0, 2] - 10) :=
  ⟨by decide, C2_sandbag_penalty _ _ _ _ _ _ (by decide)⟩

/-- `winner_step` returns one of its two arguments. -/
theorem winner_step_eq_or (w p : Spades.Play) :
    SpadesFP.winner_step w p = p ∨ SpadesFP.winner_step w p = w := by
  unfold SpadesFP.winner_step
  split_ifs <;> simp

/-- The winner loop's result is the initial winner or one of the plays. -/
theorem foldl_winner_step_mem (l : List Spades.Play) (w0 : Spades.Play) :
    l.foldl SpadesFP.winner_step w0 = w0 ∨ l.foldl SpadesFP.winner_step w0 ∈ l := by
  induction l generalizing w0 with
  | nil => exact Or.inl rfl
  | cons p l ih =>
      rw [List.foldl_cons]
      rcases ih (SpadesFP.winner_step w0 p) with h | h
      · rcases winner_step_eq_or w0 p with h2 | h2
        · exact Or.inr (by rw [h, h2]; exact List.mem_cons_self p l)
        · exact Or.inl (by rw [h, h2])
      · exact Or.inr (List.mem_cons_of_mem p h)

/-- While the running winner has suit `s`, and either `s` is spades or no
spade appears among the remaining plays, the winner loop stays on suit `s`,
never decreases in value, and ends at least as high as every suit-`s` play. -/
theorem foldl_winner_step_suit (s : String) :
    ∀ (l : List Spades.Play) (w0 : Spades.Play), w0.card.suit = s →
    (s = "♠" ∨ ∀ p ∈ l, p.card.suit ≠ "♠") →
    (l.foldl SpadesFP.winner_step w0).card.suit = s ∧
    w0.card.get_value ≤ (l.foldl SpadesFP.winner_step w0).card.get_value ∧
    ∀ p ∈ l, p.card.suit = s →
      p.card.get_value ≤ (l.foldl SpadesFP.winner_step w0).card.get_value := by
  intro l
  induction l with
  | nil =>
      intro w0 hw _
      exact ⟨hw, le_refl _, by simp⟩
  | cons p l ih =>
      intro w0 hw hl
      rw [List.foldl_cons]
      have hl2 : s = "♠" ∨ ∀ q ∈ l, q.card.suit ≠ "♠" :=
        hl.imp id (fun h q hq => h q (List.mem_cons_of_mem p hq))
      have hcond1 : ¬ (p.card.suit = "♠" ∧ w0.card.suit ≠ "♠") := by
        rcases hl with hs | hns
        · exact fun hc => hc.2 (hw.trans hs)
        · exact fun hc => hns p (List.mem_cons_self p l) hc.1
      by_cases hcond2 : p.card.suit = w0.card.suit ∧
          w0.card.get_value < p.card.get_value
      · have hstep : SpadesFP.winner_step w0 p = p := by
          unfold SpadesFP.winner_step
          rw [if_neg hcond1, if_pos hcond2]
        rw [hstep]
        have hp : p.card.suit = s := hcond2.1.trans hw
        obtain ⟨h1, h2, h3⟩ := ih p hp hl2
        refine ⟨h1, le_of_lt (lt_of_lt_of_le hcond2.2 h2), ?_⟩
        intro q hq hqs
        rcases List.mem_cons.mp hq with rfl | hq2
        · exact h2
        · exact h3 q hq2 hqs
      · have hstep : SpadesFP.winner_step w0 p = w0 := by
          unfold SpadesFP.winner_step
          rw [if_neg hcond1, if_neg hcond2]
        rw [hstep]
        obtain ⟨h1, h2, h3⟩ := ih w0 hw hl2
        refine ⟨h1, h2, ?_⟩
        intro q hq hqs
        rcases List.mem_cons.mp hq with rfl | hq2
        · have hps : q.card.suit = w0.card.suit := hqs.trans hw.symm
          have hnlt : ¬ w0.card.get_value < q.card.get_value :=
            fun hlt => hcond2 ⟨hps, hlt⟩
          exact le_trans (le_of_not_lt hnlt) h2
        · exact h3 q hq2 hqs

/-- When a spade is the running winner or appears among the plays, the winner
loop ends on a spade at least as valuable as every spade seen. -/
theorem foldl_winner_step_spade :
    ∀ (l : List Spades.Play) (w0 : Spades.Play),
    (w0.card.suit = "♠" ∨ ∃ p ∈ l, p.card.suit = "♠") →
    (l.foldl SpadesFP.winner_step w0).card.suit = "♠" ∧
    (w0.card.suit = "♠" →
      w0.card.get_value ≤ (l.foldl SpadesFP.winner_step w0).card.get_value) ∧
    ∀ p ∈ l, p.card.suit = "♠" →
      p.card.get_value ≤ (l.foldl SpadesFP.winner_step w0).card.get_value := by
  intro l
  induction l with
  | nil =>
      intro w0 h
      rcases h with h | ⟨p, hp, _⟩
      · exact ⟨h, fun _ => le_refl _, by simp⟩
      · exact absurd hp (List.not_mem_nil _)
  | cons p l ih =>
      intro w0 h
      rw [List.foldl_cons]
      by_cases hsp : w0.card.suit = "♠" ∨ p.card.suit = "♠"
      · have key : (SpadesFP.winner_step w0 p).card.suit = "♠" ∧
            (w0.card.suit = "♠" →
              w0.card.get_value ≤ (SpadesFP.winner_step w0 p).card.get_value) ∧
            (p.card.suit = "♠" →
              p.card.get_value ≤ (SpadesFP.winner_step w0 p).card.get_value) := by
          unfold SpadesFP.winner_step
          by_cases h1 : p.card.suit = "♠" ∧ w0.card.suit ≠ "♠"
          · rw [if_pos h1]
            exact ⟨h1.1, fun hw => absurd hw h1.2, fun _ => le_refl _⟩
          · rw [if_neg h1]
            have hw0 : w0.card.suit = "♠" := by
              rcases hsp with h2 | h2
              · exact h2
              · by_contra hne
                exact h1 ⟨h2, hne⟩
            by_cases h2 : p.card.suit = w0.card.suit ∧
                w0.card.get_value < p.card.get_value
            · rw [if_pos h2]
              exact ⟨h2.1.trans hw0, fun _ => le_of_lt h2.2, fun _ => le_refl _⟩
            · rw [if_neg h2]
              refine ⟨hw0, fun _ => le_refl _, fun hps => ?_⟩
              have hss : p.card.suit = w0.card.suit := hps.trans hw0.symm
              exact le_of_not_lt (fun hlt => h2 ⟨hss, hlt⟩)
        obtain ⟨k1, k2, k3⟩ := key
        obtain ⟨g1, g2, g3⟩ := ih (SpadesFP.winner_step w0 p) (Or.inl k1)
        refine ⟨g1, fun hw => le_trans (k2 hw) (g2 k1), ?_⟩
        intro q hq hqs
        rcases List.mem_cons.mp hq with rfl | hq2
        · exact le_trans (k3 hqs) (g2 k1)
        · exact g3 q hq2 hqs
      · push_neg at hsp
        obtain ⟨hw0, hp⟩ := hsp
        have hl : ∃ q ∈ l, q.card.suit = "♠" := by
          rcases h with h | ⟨q, hq, hqs⟩
          · exact absurd h hw0
          · rcases List.mem_cons.mp hq with rfl | hq2
            · exact absurd hqs hp
            · exact ⟨q, hq2, hqs⟩
        obtain ⟨g1, g2, g3⟩ := ih (SpadesFP.winner_step w0 p) (Or.inr hl)
        refine ⟨g1, fun hw => absurd hw hw0, ?_⟩
        intro q hq hqs
        rcases List.mem_cons.mp hq with rfl | hq2
        · exact absurd hqs hp
        · exact g3 q hq2 hqs

/-- Claim C4: for every complete trick of four plays: if at least one spade
was played, the winner is the play carrying the highest-valued spade;
otherwise it is the play carrying the highest-valued card of the lead suit
(the suit of the trick's first play).  The winning seat's trick counter
increases by exactly one, every other counter is unchanged, the trick is
cleared, and the winning seat becomes the leader of the next trick. -/
theorem C4_trick_resolution (s : SpadesFP.GameState) (p0 p1 p2 p3 W : Spades.Play)
    (htrick : s.current_trick = [p0, p1, p2, p3])
    (hW : SpadesFP.trick_winner s.current_trick = some W)
    (hlen : W.player < s.tricks.length) :
    ((∃ p ∈ s.current_trick, p.card.suit = "♠") →
        W.card.suit = "♠" ∧ W ∈ s.current_trick ∧
        ∀ p ∈ s.current_trick, p.card.suit = "♠" →
          p.card.get_value ≤ W.card.get_value) ∧
    ((∀ p ∈ s.current_trick, p.card.suit ≠ "♠") →
        W.card.suit = p0.card.suit ∧ W ∈ s.current_trick ∧
        ∀ p ∈ s.current_trick, p.card.suit = p0.card.suit →
          p.card.get_value ≤ W.card.get_value) ∧
    (SpadesFP.finish_trick s).tricks.getD W.player 0 =
        s.tricks.getD W.player 0 + 1 ∧
    (∀ j, j ≠ W.player →
        (SpadesFP.finish_trick s).tricks.getD j 0 = s.tricks.getD j 0) ∧
    (SpadesFP.finish_trick s).current_player = W.player ∧
    (SpadesFP.finish_trick s).current_trick = [] := by
  have hWeq : W = [p0, p1, p2, p3].foldl SpadesFP.winner_step p0 := by
    rw [htrick] at hW
    simpa [SpadesFP.trick_winner] using hW.symm
  have hmem : W ∈ [p0, p1, p2, p3] := by
    rcases foldl_winner_step_mem [p0, p1, p2, p3] p0 with h | h
    · rw [hWeq, h]; exact List.mem_cons_self _ _
    · rw [hWeq]; exact h
  have hft : SpadesFP.finish_trick s =
      { s with
        tricks := s.tricks.set W.player (s.tricks.getD W.player 0 + 1)
        current_trick := []
        lead_suit := none
        current_player := W.player } := by
    unfold SpadesFP.finish_trick
    rw [htrick]
    dsimp only
    rw [← hWeq]
  refine ⟨?_, ?_, ?_, ?_, ?_, ?_⟩
  · rw [htrick]
    intro hsp
    obtain ⟨g1, _, g3⟩ := foldl_winner_step_spade [p0, p1, p2, p3] p0 (Or.inr hsp)
    exact ⟨by rw [hWeq]; exact g1, hmem,
      fun p hp hps => by rw [hWeq]; exact g3 p hp hps⟩
  · rw [htrick]
    intro hns
    obtain ⟨g1, _, g3⟩ := foldl_winner_step_suit p0.card.suit [p0, p1, p2, p3] p0
      rfl (Or.inr hns)
    exact ⟨by rw [hWeq]; exact g1, hmem,
      fun p hp hps => by rw [hWeq]; exact g3 p hp hps⟩
  · rw [hft]
    simp only [List.getD_eq_getElem?_getD]
    rw [List.getElem?_set_self]
    · simp
    · exact hlen
  · intro j hj
    rw [hft]
    simp only [List.getD_eq_getElem?_getD]
    rw [List.getElem?_set_ne (fun h => hj h.symm)]
  · rw [hft]
  · rw [hft]

/-- A concrete trick for the claim-C4 witness: the specification's example
plays `(0, 2♠), (1, A♥), (2, K♠), (3, Q♥)`, whose winner is seat 2 (highest
spade beats any non-spade). -/
def C4_example_state : SpadesFP.GameState :=
  { game_state := "playing"
    hands := [[], [], [], []]
    bids := [some 3, some 3, some 3, some 3]
    deal_bids := [false, false, false, false]
    tricks := [0, 0, 0, 0]
    current_trick := [⟨0, ⟨"♠", "2"⟩⟩, ⟨1, ⟨"♥", "A"⟩⟩, ⟨2, ⟨"♠", "K"⟩⟩, ⟨3, ⟨"♥", "Q"⟩⟩]
    current_player := 3
    lead_suit := some "♠"
    spades_broken := true
    scores := [[0, 0], [0, 0]]
    rounds := 1 }

/-- Claim C4, witness: on the example trick, seat 2's counter goes up by one
and seat 2 leads the next trick. -/
theorem C4_trick_resolution_witness :
    (SpadesFP.finish_trick C4_example_state).tricks.getD 2 0 =
        C4_example_state.tricks.getD 2 0 + 1 ∧
    (SpadesFP.finish_trick C4_example_state).current_player = 2 :=
  ⟨(C4_trick_resolution C4_example_state _ _ _ _ ⟨2, ⟨"♠", "K"⟩⟩ rfl (by decide)
      (by decide)).2.2.1,
   (C4_trick_resolution C4_example_state _ _ _ _ ⟨2, ⟨"♠", "K"⟩⟩ rfl (by decide)
      (by decide)).2.2.2.2.1⟩

/-- With the human to act, `can_play` reduces to its lead/follow body. -/
theorem can_play_eq (s : SpadesFP.GameState) (card : Spades.Card)
    (h0 : s.current_player = 0) :
    SpadesFP.can_play s card =
      (if s.current_trick.isEmpty then
        (if s.spades_broken ∨ card.suit ≠ "♠" then true
         else (s.hands.getD 0 []).all (fun c => c.suit = "♠"))
       else if (s.hands.getD 0 []).any (fun c => s.lead_suit = some c.suit) then
        decide (s.lead_suit = some card.suit)
       else true) := by
  unfold SpadesFP.can_play
  rw [if_neg (by simp [h0])]

/-- Claim C5: legality of a card for the human player during play, and the
one-way spades-broken flag.  When leading: a card is legal iff spades are
broken, or the card is not a spade, or the hand holds only spades.  When
following: if the hand holds any card of the lead suit, exactly the lead-suit
cards are legal; otherwise any card is legal.  Playing a spade sets the
spades-broken flag (in particular when unable to follow the lead suit), and
neither playing a card nor finishing a trick ever clears it within the
round. -/
theorem C5_legal_play_and_spades_broken (s : SpadesFP.GameState)
    (card : Spades.Card) (player : ℕ) :
    (s.current_player = 0 → s.current_trick = [] →
      (SpadesFP.can_play s card = true ↔
        (s.spades_broken = true ∨ card.suit ≠ "♠" ∨
          ∀ c ∈ s.hands.getD 0 [], c.suit = "♠"))) ∧
    (s.current_player = 0 → s.current_trick ≠ [] →
      (∃ c ∈ s.hands.getD 0 [], s.lead_suit = some c.suit) →
      (SpadesFP.can_play s card = true ↔ s.lead_suit = some card.suit)) ∧
    (s.current_player = 0 → s.current_trick ≠ [] →
      (∀ c ∈ s.hands.getD 0 [], s.lead_suit ≠ some c.suit) →
      SpadesFP.can_play s card = true) ∧
    (card.suit = "♠" → card ∈ s.hands.getD player [] →
      (SpadesFP.play_card s player card).spades_broken = true) ∧
    (s.spades_broken = true →
      (SpadesFP.play_card s player card).spades_broken = true) ∧
    (s.spades_broken = true →
      (SpadesFP.finish_trick s).spades_broken = true) := by
  refine ⟨?_, ?_, ?_, ?_, ?_, ?_⟩
  · intro h0 hemp
    rw [can_play_eq s card h0, if_pos (by simp [hemp])]
    split_ifs with hcond
    · constructor
      · intro _
        rcases hcond with h | h
        · exact Or.inl h
        · exact Or.inr (Or.inl h)
      · intro _
        rfl
    · push_neg at hcond
      simp [List.all_eq_true, hcond.1, hcond.2]
  · intro h0 hne hhas
    obtain ⟨c, hc, hcs⟩ := hhas
    have hany : ((s.hands.getD 0 []).any fun c => decide (s.lead_suit = some c.suit)) = true :=
      List.any_eq_true.mpr ⟨c, hc, by simp [hcs]⟩
    rw [can_play_eq s card h0,
      if_neg (by simpa [List.isEmpty_iff] using hne), if_pos hany]
    exact decide_eq_true_iff
  · intro h0 hne hnone
    have hany : ((s.hands.getD 0 []).any fun c => decide (s.lead_suit = some c.suit)) = false := by
      rw [List.any_eq_false]
      intro c hc
      simp [hnone c hc]
    rw [can_play_eq s card h0,
      if_neg (by simpa [List.isEmpty_iff] using hne), if_neg (by rw [hany]; simp)]
  · intro hsuit hmem
    unfold SpadesFP.play_card
    rw [if_neg (by simpa using hmem)]
    simp [hsuit]
  · intro hb
    unfold SpadesFP.play_card
    by_cases hmem : card ∈ s.hands.getD player []
    · rw [if_neg (by simpa using hmem)]
      split_ifs <;> simp [hb]
    · rw [if_pos hmem]
      exact hb
  · intro hb
    unfold SpadesFP.finish_trick
    cases htr : s.current_trick with
    | nil => exact hb
    | cons first rest => exact hb

/-- Claim C6: saving any non-tutorial state and loading the snapshot back
(into any running game instance) reproduces identical hands for all four
seats, the identical in-progress trick, identical bids and zero-bid flags,
identical trick counts, identical team scores and bag counters, the identical
current-player index, and the remaining saved fields. -/
theorem C6_save_load_round_trip (s t : SpadesFP.GameState)
    (h : s.game_state ≠ "tutorial") :
    ∃ d, SpadesFP.save_game s = some d ∧
      ((SpadesFP.load_game d t).hands = s.hands ∧
       (SpadesFP.load_game d t).current_trick = s.current_trick ∧
       (SpadesFP.load_game d t).bids = s.bids ∧
       (SpadesFP.load_game d t).deal_bids = s.deal_bids ∧
       (SpadesFP.load_game d t).tricks = s.tricks ∧
       (SpadesFP.load_game d t).scores = s.scores ∧
       (SpadesFP.load_game d t).current_player = s.current_player ∧
       (SpadesFP.load_game d t).lead_suit = s.lead_suit ∧
       (SpadesFP.load_game d t).spades_broken = s.spades_broken ∧
       (SpadesFP.load_game d t).game_state = s.game_state ∧
       (SpadesFP.load_game d t).rounds = s.rounds) := by
  unfold SpadesFP.save_game
  rw [if_neg h]
  refine ⟨_, rfl, ?_⟩
  have h1 : List.map (List.map Spades.Card.from_dict)
      (List.map (List.map Spades.Card.to_dict) s.hands) = s.hands := by
    rw [List.map_map]
    have hcomp : (List.map Spades.Card.from_dict ∘ List.map Spades.Card.to_dict) = id := by
      funext l
      simp only [Function.comp_apply, id_eq]
      rw [List.map_map]
      have hcard : (Spades.Card.from_dict ∘ Spades.Card.to_dict) = id := rfl
      rw [hcard, List.map_id]
    rw [hcomp, List.map_id]
  have h2 : List.map (fun p : SpadesFP.TrickEntryDict =>
        ({ player := p.player, card := Spades.Card.from_dict p.card } : Spades.Play))
      (List.map (fun p : Spades.Play =>
        ({ player := p.player, card := p.card.to_dict } : SpadesFP.TrickEntryDict))
        s.current_trick) = s.current_trick := by
    rw [List.map_map]
    have hcomp : ((fun p : SpadesFP.TrickEntryDict =>
        ({ player := p.player, card := Spades.Card.from_dict p.card } : Spades.Play)) ∘
        (fun p : Spades.Play =>
          ({ player := p.player, card := p.card.to_dict } : SpadesFP.TrickEntryDict))) = id := rfl
    rw [hcomp, List.map_id]
  exact ⟨h1, h2, rfl, rfl, rfl, rfl, rfl, rfl, rfl, rfl, rfl⟩

/-- A concrete mid-round state for the claim-C6 witness: partial hands, a
one-card trick in progress, recorded bids, nonzero scores and bags. -/
def C6_example_state : SpadesFP.GameState :=
  { game_state := "playing"
    hands := [[⟨"♥", "A"⟩], [⟨"♠", "2"⟩], [⟨"♦", "K"⟩], [⟨"♣", "5"⟩]]
    bids := [some 4, some 2, some 4, some 3]
    deal_bids := [false, true, false, false]
    tricks := [3, 2, 4, 3]
    current_trick := [⟨2, ⟨"♦", "Q"⟩⟩]
    current_player := 3
    lead_suit := some "♦"
    spades_broken := false
    scores := [[52, 3], [48, 2]]
    rounds := 2 }

/-- Claim C6, witness: the concrete mid-round state saves, and loading the
snapshot reproduces its hands. -/
theorem C6_save_load_round_trip_witness :
    ∃ d, SpadesFP.save_game C6_example_state = some d ∧
      (SpadesFP.load_game d C6_example_state).hands = C6_example_state.hands :=
  Exists.imp (fun _ hd => ⟨hd.1, hd.2.1⟩)
    (C6_save_load_round_trip C6_example_state C6_example_state (by decide))

/-- Cumulative team scores after a list of per-round score deltas (spec-side
bookkeeping for stating where the round loop stops). -/
def SpadesGG.accum (s : ℤ × ℤ) (ds : List (ℤ × ℤ)) : ℤ × ℤ :=
  ds.foldl (fun a d => (a.1 + d.1, a.2 + d.2)) s

/-- The round loop stops exactly at the first round resolution whose
cumulative scores satisfy `game_over`; if no resolution does, every round is
played. -/
theorem play_rounds_first_crossing :
    ∀ (ds : List (ℤ × ℤ)) (s0 s1 : ℤ),
    (∃ pre post, ds = pre ++ post ∧ pre ≠ [] ∧
        SpadesGG.play_rounds s0 s1 ds = SpadesGG.accum (s0, s1) pre ∧
        SpadesGG.game_over (SpadesGG.accum (s0, s1) pre).1
          (SpadesGG.accum (s0, s1) pre).2 = true ∧
        ∀ pre2 post2, pre = pre2 ++ post2 → pre2 ≠ [] → post2 ≠ [] →
          SpadesGG.game_over (SpadesGG.accum (s0, s1) pre2).1
            (SpadesGG.accum (s0, s1) pre2).2 = false) ∨
    ((∀ pre2 post2, ds = pre2 ++ post2 → pre2 ≠ [] →
        SpadesGG.game_over (SpadesGG.accum (s0, s1) pre2).1
          (SpadesGG.accum (s0, s1) pre2).2 = false) ∧
      SpadesGG.play_rounds s0 s1 ds = SpadesGG.accum (s0, s1) ds) := by
  intro ds
  induction ds with
  | nil =>
      intro s0 s1
      right
      refine ⟨?_, rfl⟩
      intro pre2 post2 heq hne
      exact absurd (List.append_eq_nil.mp heq.symm).1 hne
  | cons d rest ih =>
      intro s0 s1
      by_cases hover : SpadesGG.game_over (s0 + d.1) (s1 + d.2) = true
      · left
        refine ⟨[d], rest, rfl, by simp, ?_, ?_, ?_⟩
        · simp only [SpadesGG.play_rounds]
          rw [if_pos hover]
          rfl
        · exact hover
        · intro pre2 post2 heq hne2 hnp2
          rcases pre2 with _ | ⟨x, pre2x⟩
          · exact absurd rfl hne2
          · rcases post2 with _ | ⟨y, post2y⟩
            · exact absurd rfl hnp2
            · have hlen := congrArg List.length heq
              simp [List.length_append] at hlen
      · have hover2 : SpadesGG.game_over (s0 + d.1) (s1 + d.2) = false := by
          simpa using hover
        rcases ih (s0 + d.1) (s1 + d.2) with
          ⟨pre, post, heq, hne, hrun, hov, hmin⟩ | ⟨hnone, hrun⟩
        · left
          refine ⟨d :: pre, post, by rw [heq]; rfl, by simp, ?_, ?_, ?_⟩
          · simp only [SpadesGG.play_rounds]
            rw [if_neg hover]
            exact hrun
          · exact hov
          · intro pre2 post2 heq2 hne2 hnp2
            rcases pre2 with _ | ⟨x, pre2x⟩
            · exact absurd rfl hne2
            · rw [List.cons_append] at heq2
              injection heq2 with h1 h2
              subst h1
              rcases pre2x with _ | ⟨z, pre2z⟩
              · exact hover2
              · exact hmin (z :: pre2z) post2 h2 (by simp) hnp2
        · right
          constructor
          · intro pre2 post2 heq2 hne2
            rcases pre2 with _ | ⟨x, pre2x⟩
            · exact absurd rfl hne2
            · rw [List.cons_append] at heq2
              injection heq2 with h1 h2
              subst h1
              rcases pre2x with _ | ⟨z, pre2z⟩
              · exact hover2
              · exact hnone (z :: pre2z) post2 h2 (by simp)
          · simp only [SpadesGG.play_rounds]
            rw [if_neg hover]
            exact hrun

/-- Claim C3 (amended): the game ends exactly at the first round resolution
after which at least one team's cumulative score is ≥ 300 (the loop stops
there and every earlier resolution was below the threshold).  In the
`spades_ggame.py` draft the declared winner is the team with the strictly
higher final score (team 1 exactly when its score exceeds team 2's).  In the
`Final_Project/spades_game.py` draft, `end_game` declares team 1 the winner
exactly when team 1's score is ≥ 300 — even when both teams are ≥ 300 and
team 2's score is higher. -/
theorem C3_game_end_and_winner (s0 s1 : ℤ) (ds : List (ℤ × ℤ)) :
    (SpadesGG.game_over s0 s1 = true ↔ 300 ≤ s0 ∨ 300 ≤ s1) ∧
    (SpadesGG.team1_won s0 s1 = true ↔ s1 < s0) ∧
    (SpadesFP.fp_end_game_winner s0 s1 = 1 ↔ 300 ≤ s0) ∧
    ((∃ pre post, ds = pre ++ post ∧ pre ≠ [] ∧
        SpadesGG.play_rounds s0 s1 ds = SpadesGG.accum (s0, s1) pre ∧
        SpadesGG.game_over (SpadesGG.accum (s0, s1) pre).1
          (SpadesGG.accum (s0, s1) pre).2 = true ∧
        ∀ pre2 post2, pre = pre2 ++ post2 → pre2 ≠ [] → post2 ≠ [] →
          SpadesGG.game_over (SpadesGG.accum (s0, s1) pre2).1
            (SpadesGG.accum (s0, s1) pre2).2 = false) ∨
     ((∀ pre2 post2, ds = pre2 ++ post2 → pre2 ≠ [] →
         SpadesGG.game_over (SpadesGG.accum (s0, s1) pre2).1
           (SpadesGG.accum (s0, s1) pre2).2 = false) ∧
       SpadesGG.play_rounds s0 s1 ds = SpadesGG.accum (s0, s1) ds)) := by
  refine ⟨?_, ?_, ?_, play_rounds_first_crossing ds s0 s1⟩
  · simp [SpadesGG.game_over, SpadesFP.WINNING_SCORE]
  · simp [SpadesGG.team1_won]
  · unfold SpadesFP.fp_end_game_winner SpadesFP.WINNING_SCORE
    split_ifs with h
    · simpa using h
    · simpa using h

/-- Claim C3, counterexample to the claim as stated: with final scores 300 and
340 (both teams at or above the threshold after the same round),
`Final_Project/spades_game.py`'s `end_game` declares team 1 the winner even
though team 2's final score 340 is the higher. -/
theorem C3_counterexample :
    SpadesFP.fp_end_game_winner 300 340 = 1 ∧ (300 : ℤ) < 340 := by
  constructor
  · decide
  · decide
